import Mathlib

set_option maxRecDepth 8000

/-!
Verification of the playback scheduling engine of the midi-karaoke
repository.

The definitions below are a shallow embedding of the `MidiPlayer` class
(`src/unnamed/part_001`, a TypeScript `EventEmitter` around a mutable
player object) and of the piano-channel classifier inside
`parseKarFileComplete` (`src/electron/midi/parser.ts`).

Modelling conventions:
* JavaScript numbers (times in seconds / milliseconds, velocities) are
  modelled as rationals `ℚ`; all arithmetic the engine performs on them
  (`+`, `-`, `* 1000`, comparisons, `Math.round(v * 127)`) is exact on
  the rationals, so nothing is lost for the properties proved here.
* `Date.now()` is modelled by passing the current wall-clock instant
  `now : ℚ` (milliseconds) explicitly to each operation that reads it.
* The output sink (`this.midiOutput.send(message)`) is modelled by
  letting every operation return, next to the new player value, the
  list of raw 3-byte messages it hands to the sink, in send order.
  `midiOutput : Bool` records whether a sink is attached (`null` check
  in the source).  `EventEmitter` notifications and `setTimeout`-delayed
  re-publications never reach the sink and are not modelled.
* The `setInterval` tick loop is not reified: `tick` is modelled as an
  operation that may be invoked at arbitrary wall-clock instants, and
  its own guard (`!this.playing || this.paused`) makes it a no-op
  exactly when the source loop would have been cancelled.
* The TypeScript `Set<number>` of piano channels is modelled as a
  `List ℕ` used only through membership and emptiness tests.
-/

namespace MidiKaraoke

/-- Floor of a rational number, computed on the normalised
numerator/denominator pair (the denominator is positive, so Euclidean
division is exactly the floor). -/
def ratFloor (q : ℚ) : ℤ := Int.ediv q.num q.den

/-- JavaScript `Math.round`: round half toward positive infinity. -/
def jsRound (q : ℚ) : ℤ := ratFloor (q + 1 / 2)

/-- `NoteEvent` from `parser.ts`: a note with absolute start time and
duration in seconds, a unit-interval velocity and a source channel. -/
structure NoteEvent where
  midi : Nat
  velocity : ℚ
  duration : ℚ
  time : ℚ
  channel : Nat
deriving DecidableEq, Repr

/-- `TrackInfo` from `parser.ts` (the fields the engine reads). -/
structure TrackInfo where
  channel : Nat
  notes : List NoteEvent
  instrumentProgram : Nat
deriving DecidableEq, Repr

/-- `ParsedSong` from `parser.ts` (the fields the player reads). -/
structure ParsedSong where
  name : String
  duration : ℚ
  tracks : List TrackInfo
  pianoChannels : List Nat
deriving DecidableEq, Repr

/-- GM piano-family program numbers, `PIANO_PROGRAMS` in `parser.ts`. -/
def PIANO_PROGRAMS : List Nat := [0, 1, 2, 3, 4, 5, 6, 7]

/-- The piano-channel classifier inside `parseKarFileComplete`
(`parser.ts` lines 213-246): a channel is collected exactly when some
track with at least one note declares a piano-family program on it and
the channel is not 9; the resulting set is returned deduplicated in
ascending order (`Array.from(set).sort((a, b) => a - b)`), modelled by
an insertion sort of the deduplicated channel list. -/
def insertAsc (x : Nat) : List Nat → List Nat
  | [] => [x]
  | y :: l => if y ≤ x then y :: insertAsc x l else x :: y :: l

/-- Ascending insertion sort for channel lists. -/
def sortAsc (l : List Nat) : List Nat := l.foldl (fun acc x => insertAsc x acc) []

/-- `pianoChannelsSet` accumulation of `parseKarFileComplete`. -/
def computePianoChannels (tracks : List TrackInfo) : List Nat :=
  sortAsc ((tracks.filter (fun tr =>
    !tr.notes.isEmpty && PIANO_PROGRAMS.contains tr.instrumentProgram &&
      tr.channel != 9)).map (fun tr => tr.channel)).dedup

/-- `ScheduledNote` from the player: a note plus its on/off instants in
milliseconds and the two sent flags. -/
structure ScheduledNote where
  note : NoteEvent
  noteOnTime : ℚ
  noteOffTime : ℚ
  sent : Bool
  offSent : Bool
deriving DecidableEq, Repr

/-- Creation of a `ScheduledNote` in `loadSong`
(`noteOnTime = note.time * 1000`, `noteOffTime = (note.time + note.duration) * 1000`,
both flags initially false). -/
def buildScheduled (note : NoteEvent) : ScheduledNote :=
  { note := note
    noteOnTime := note.time * 1000
    noteOffTime := (note.time + note.duration) * 1000
    sent := false
    offSent := false }

/-- A raw MIDI message handed to the output sink: a list of byte
values, always of length 3 in this engine. -/
abbrev Msg := List ℤ

/-- The channel nibble of a raw message: low 4 bits of the status byte. -/
def msgChannel (m : Msg) : ℤ := m.headD 0 % 16

/-- The mutable state of the `MidiPlayer` singleton. -/
structure MidiPlayer where
  song : Option ParsedSong
  midiOutput : Bool
  playing : Bool
  paused : Bool
  startTime : ℚ
  pauseTime : ℚ
  scheduledNotes : List ScheduledNote
  pianoChannels : List Nat
  currentSinger : String
deriving DecidableEq, Repr

/-- The freshly constructed player (`new MidiPlayer()` field
initialisers). -/
def initPlayer : MidiPlayer :=
  { song := none
    midiOutput := false
    playing := false
    paused := false
    startTime := 0
    pauseTime := 0
    scheduledNotes := []
    pianoChannels := []
    currentSinger := "" }

/-- `shouldSendToDisklavier` (player lines 287-302): never channel 9;
if piano channels were detected, only those; otherwise everything
non-percussion. -/
def shouldSendToDisklavier (pianoChannels : List Nat) (channel : Nat) : Bool :=
  let ch := channel % 16
  if ch == 9 then false
  else if !pianoChannels.isEmpty then pianoChannels.contains ch
  else true

/-- The sink messages of `sendNoteOn`: one note-on, remapped to output
channel 0 (`status = 0x90`), sent only when a sink is attached and the
channel filter passes. -/
def noteOnMsgs (out : Bool) (pianoChannels : List Nat) (channel midi : Nat)
    (velocity : ℤ) : List Msg :=
  if out && shouldSendToDisklavier pianoChannels channel then
    [[0x90, (midi : ℤ), velocity]]
  else []

/-- The sink messages of `sendNoteOff`: one note-off on output channel 0
(`status = 0x80`), same guard as `sendNoteOn`. -/
def noteOffMsgs (out : Bool) (pianoChannels : List Nat) (channel midi : Nat) : List Msg :=
  if out && shouldSendToDisklavier pianoChannels channel then
    [[0x80, (midi : ℤ), 0]]
  else []

/-- The sink messages of `allNotesOff` (player lines 357-368): CC 123
(`status = 0xB0 | channel`) on each of the 16 channels, sent whenever a
sink is attached, with no channel filtering. -/
def allNotesOffMsgs (out : Bool) : List Msg :=
  if out then (List.range 16).map (fun (ch : Nat) => [0xB0 + (ch : ℤ), 123, 0]) else []

/-- `getCurrentTime` (player lines 203-207). -/
def getCurrentTime (pl : MidiPlayer) (now : ℚ) : ℚ :=
  if !pl.playing then 0
  else if pl.paused then pl.pauseTime - pl.startTime
  else now - pl.startTime

/-- The state snapshot returned by `getState` (player lines 189-201);
the fields the claims mention. -/
structure PlaybackState where
  playing : Bool
  paused : Bool
  currentTime : ℚ
  duration : ℚ
  songName : String
  singer : String
deriving DecidableEq, Repr

/-- `getState` (player lines 189-201). -/
def getState (pl : MidiPlayer) (now : ℚ) : PlaybackState :=
  { playing := pl.playing
    paused := pl.paused
    currentTime := getCurrentTime pl now
    duration := match pl.song with | some s => s.duration * 1000 | none => 0
    songName := match pl.song with | some s => s.name | none => ""
    singer := pl.currentSinger }

/-- The body of `resetNotes` for one note: both flags cleared. -/
def resetNote (s : ScheduledNote) : ScheduledNote :=
  { s with sent := false, offSent := false }

/-- `resetNotes` (player lines 280-285). -/
def resetNotes (pl : MidiPlayer) : MidiPlayer :=
  { pl with scheduledNotes := pl.scheduledNotes.map resetNote }

/-- The body of the per-note processing in `tick` (player lines
246-262): first the note-on check (`!sent && t >= noteOnTime`), then —
on the updated flags — the note-off check
(`!offSent && sent && t >= noteOffTime`); messages in emission order. -/
def tickNote (out : Bool) (pianoChannels : List Nat) (t : ℚ) (s : ScheduledNote) :
    ScheduledNote × List Msg :=
  if !s.sent && decide (s.noteOnTime ≤ t) then
    let m1 := noteOnMsgs out pianoChannels s.note.channel s.note.midi
      (jsRound (s.note.velocity * 127))
    if !s.offSent && decide (s.noteOffTime ≤ t) then
      ({ s with sent := true, offSent := true },
        m1 ++ noteOffMsgs out pianoChannels s.note.channel s.note.midi)
    else ({ s with sent := true }, m1)
  else
    if !s.offSent && s.sent && decide (s.noteOffTime ≤ t) then
      ({ s with offSent := true }, noteOffMsgs out pianoChannels s.note.channel s.note.midi)
    else (s, [])

/-- The `for (const scheduled of this.scheduledNotes)` loop of `tick`,
collecting the per-note sink messages in iteration order. -/
def tickNotes (out : Bool) (pianoChannels : List Nat) (t : ℚ) :
    List ScheduledNote → List ScheduledNote × List Msg
  | [] => ([], [])
  | s :: rest =>
    let p := tickNote out pianoChannels t s
    let q := tickNotes out pianoChannels t rest
    (p.1 :: q.1, p.2 ++ q.2)

/-- `stop` (player lines 150-158): clears the transport flags, sends
all-notes-off and resets every note flag. -/
def stop (pl : MidiPlayer) : MidiPlayer × List Msg :=
  let pl1 := { pl with playing := false, paused := false }
  (resetNotes pl1, allNotesOffMsgs pl1.midiOutput)

/-- `tick` (player lines 233-278): no-op unless a song is loaded,
playing and not paused; past the song duration it behaves as `stop`;
otherwise it runs the per-note scan at the current logical time. -/
def tick (pl : MidiPlayer) (now : ℚ) : MidiPlayer × List Msg :=
  match pl.song with
  | none => (pl, [])
  | some sg =>
    if !pl.playing || pl.paused then (pl, [])
    else
      if decide (sg.duration * 1000 ≤ getCurrentTime pl now) then stop pl
      else
        ({ pl with
            scheduledNotes :=
              (tickNotes pl.midiOutput pl.pianoChannels (getCurrentTime pl now)
                pl.scheduledNotes).1 },
          (tickNotes pl.midiOutput pl.pianoChannels (getCurrentTime pl now)
            pl.scheduledNotes).2)

/-- `play` (player lines 118-135): no-op without a song; from pause it
shifts the start instant forward by the pause duration; otherwise it
starts fresh from `now` and resets every note flag. -/
def play (pl : MidiPlayer) (now : ℚ) : MidiPlayer :=
  match pl.song with
  | none => pl
  | some _ =>
    let pl1 :=
      if pl.paused then
        { pl with startTime := pl.startTime + (now - pl.pauseTime), paused := false }
      else
        resetNotes { pl with startTime := now }
    { pl1 with playing := true }

/-- `pause` (player lines 137-148): only from playing and not paused;
records the pause instant and sends all-notes-off. -/
def pause (pl : MidiPlayer) (now : ℚ) : MidiPlayer × List Msg :=
  if !pl.playing || pl.paused then (pl, [])
  else
    let pl1 := { pl with paused := true, pauseTime := now }
    (pl1, allNotesOffMsgs pl1.midiOutput)

/-- The per-note flag re-arming of `seek` (player lines 169-177):
notes starting at or after the target are fully un-sent; notes ending
at or after it get only `offSent` cleared; earlier notes are untouched. -/
def seekNote (timeMs : ℚ) (s : ScheduledNote) : ScheduledNote :=
  if decide (timeMs ≤ s.noteOnTime) then { s with sent := false, offSent := false }
  else if decide (timeMs ≤ s.noteOffTime) then { s with offSent := false }
  else s

/-- `seek` (player lines 160-187): no-op without a song; sends
all-notes-off, re-arms every note flag relative to the target, and
recomputes the start instant as `now - timeMs`. -/
def seek (pl : MidiPlayer) (now timeMs : ℚ) : MidiPlayer × List Msg :=
  match pl.song with
  | none => (pl, [])
  | some _ =>
    ({ pl with
        scheduledNotes := pl.scheduledNotes.map (seekNote timeMs)
        startTime := now - timeMs },
      allNotesOffMsgs pl.midiOutput)

/-- `loadSong` (player lines 59-116): runs `stop`, installs the song,
its singer and its piano channels, and rebuilds the scheduled-note list
sorted stably by `noteOnTime` (`Array.prototype.sort` with comparator
`a.noteOnTime - b.noteOnTime` is a stable sort; modelled by a stable
insertion sort). -/
def insertByOnTime (s : ScheduledNote) : List ScheduledNote → List ScheduledNote
  | [] => [s]
  | b :: l => if decide (b.noteOnTime ≤ s.noteOnTime) then b :: insertByOnTime s l
              else s :: b :: l

/-- Stable sort of the scheduled notes by `noteOnTime`. -/
def sortByOnTime (l : List ScheduledNote) : List ScheduledNote :=
  l.foldl (fun acc s => insertByOnTime s acc) []

/-- `loadSong` itself. -/
def loadSong (pl : MidiPlayer) (song : ParsedSong) (singer : String) :
    MidiPlayer × List Msg :=
  let p := stop pl
  ({ p.1 with
      song := some song
      currentSinger := singer
      pianoChannels := song.pianoChannels
      scheduledNotes :=
        sortByOnTime (((song.tracks.map (fun tr => tr.notes)).flatten).map buildScheduled) },
    p.2)

/-- A transport-level command, with the wall-clock instant at which it
runs where the source reads `Date.now()`. -/
inductive Op where
  | opPlay (now : ℚ)
  | opPause (now : ℚ)
  | opStop
  | opSeek (now timeMs : ℚ)
  | opTick (now : ℚ)
  | opLoad (song : ParsedSong) (singer : String)
  | opSetOutput (b : Bool)
deriving Repr

/-- One command applied to the player, with its sink messages. -/
def applyOp (pl : MidiPlayer) : Op → MidiPlayer × List Msg
  | .opPlay n => (play pl n, [])
  | .opPause n => pause pl n
  | .opStop => stop pl
  | .opSeek n t => seek pl n t
  | .opTick n => tick pl n
  | .opLoad s sg => loadSong pl s sg
  | .opSetOutput b => ({ pl with midiOutput := b }, [])

/-- A command sequence applied left to right, concatenating the sink
traffic in send order. -/
def runOps (pl : MidiPlayer) : List Op → MidiPlayer × List Msg
  | [] => (pl, [])
  | op :: ops =>
    let p := applyOp pl op
    let q := runOps p.1 ops
    (q.1, p.2 ++ q.2)

/-- The effect of one engine operation on a single scheduled note
together with the sink messages attributable to that note.  Transport
operations act on an individual note in exactly three ways: a tick at
logical time `t` runs the loop body of `tick`; `seek` re-arms the
flags; `stop` and a fresh (non-resume) `play` reset them.  `pause` and
a resume `play` do not touch note flags, and no operation other than a
tick emits note-on/note-off messages for the note. -/
inductive NoteOp where
  | nTick (t : ℚ)
  | nSeek (timeMs : ℚ)
  | nReset
deriving Repr

/-- Apply one per-note operation. -/
def applyNoteOp (out : Bool) (pianoChannels : List Nat) (s : ScheduledNote) :
    NoteOp → ScheduledNote × List Msg
  | .nTick t => tickNote out pianoChannels t s
  | .nSeek timeMs => (seekNote timeMs s, [])
  | .nReset => (resetNote s, [])

/-- A per-note operation sequence applied left to right. -/
def runNote (out : Bool) (pianoChannels : List Nat) :
    List NoteOp → ScheduledNote → ScheduledNote × List Msg
  | [], s => (s, [])
  | op :: ops, s =>
    let p := applyNoteOp out pianoChannels s op
    let q := runNote out pianoChannels ops p.1
    (q.1, p.2 ++ q.2)

/-- Number of note-on messages (status byte `0x90`) in a sink trace. -/
def countOn (msgs : List Msg) : Nat := msgs.countP (fun m => m.headD 0 == 0x90)

/-- Number of note-off messages (status byte `0x80`) in a sink trace. -/
def countOff (msgs : List Msg) : Nat := msgs.countP (fun m => m.headD 0 == 0x80)

/-- Remaining permission to emit a note-on: gone once `sent` holds. -/
def onBudget (s : ScheduledNote) : Nat := if s.sent then 0 else 1

/-- Remaining permission to emit a note-off: gone once `offSent` holds. -/
def offBudget (s : ScheduledNote) : Nat := if s.offSent then 0 else 1

/-- The three possible shapes of a message the engine hands to the
sink: a note-on remapped to channel 0, a note-off remapped to channel
0, or the CC-123 all-notes-off broadcast on one of the 16 channels. -/
def msgShape (m : Msg) : Prop :=
  (∃ n v, m = [0x90, n, v]) ∨ (∃ n, m = [0x80, n, 0]) ∨
  (∃ ch : Nat, ch < 16 ∧ m = [0xB0 + (ch : ℤ), 123, 0])

/-- Demonstration note used by concrete witnesses: starts at one
second, lasts one second, channel 3, full velocity. -/
def demoNote : NoteEvent :=
  { midi := 64, velocity := 1, duration := 1, time := 1, channel := 3 }

/-- The player with a sink attached, as produced by `setMidiOutput`
after construction. -/
def demoPlayer : MidiPlayer := { initPlayer with midiOutput := true }

/-- A one-track piano song holding only `demoNote`. -/
def demoTrack : TrackInfo :=
  { channel := 3, notes := [demoNote], instrumentProgram := 0 }

/-- The parsed form of the demo song, with its piano channels computed
by the classifier exactly as `parseKarFileComplete` would. -/
def demoSong : ParsedSong :=
  { name := "demo", duration := 3, tracks := [demoTrack],
    pianoChannels := computePianoChannels [demoTrack] }

/-- The demo song loaded into the player. -/
def demoLoaded : MidiPlayer := (loadSong demoPlayer demoSong "dana").1

/-- The demo player playing from wall-clock instant 1000. -/
def demoPlaying : MidiPlayer := play demoLoaded 1000

/-- The three-note song of the concrete spec scenario: notes at
t = 0, 1, 2 seconds, one second each, on piano channel 0. -/
def note3 (i : Nat) : NoteEvent :=
  { midi := 60 + i, velocity := 1, duration := 1, time := (i : ℚ), channel := 0 }

/-- The single track of the three-note song. -/
def track3 : TrackInfo :=
  { channel := 0, notes := [note3 0, note3 1, note3 2], instrumentProgram := 0 }

/-- The three-note song itself. -/
def song3 : ParsedSong :=
  { name := "threenotes", duration := 3, tracks := [track3],
    pianoChannels := computePianoChannels [track3] }

/-- The scheduled-note list `loadSong` builds for `song3`. -/
def scheduled3 : List ScheduledNote :=
  [ { note := note3 0, noteOnTime := 0, noteOffTime := 1000,
      sent := false, offSent := false },
    { note := note3 1, noteOnTime := 1000, noteOffTime := 2000,
      sent := false, offSent := false },
    { note := note3 2, noteOnTime := 2000, noteOffTime := 3000,
      sent := false, offSent := false } ]

/-- The player state right after `loadSong(song3)`. -/
def plLoaded3 : MidiPlayer :=
  { song := some song3, midiOutput := true, playing := false, paused := false,
    startTime := 0, pauseTime := 0, scheduledNotes := scheduled3,
    pianoChannels := [0], currentSinger := "alice" }

/-- The player state after a subsequent `seek(1500)` while stopped at
wall-clock 10000. -/
def plSeeked3 : MidiPlayer := { plLoaded3 with startTime := 8500 }

/-- The player state after then calling `play()` at wall-clock 20000. -/
def plPlayed3 : MidiPlayer :=
  { plSeeked3 with startTime := 20000, playing := true }

/-- A track declaring a non-piano instrument (GM program 25, guitar)
on channel 3, used for the permissive-fallback claims. -/
def guitarTrack : TrackInfo :=
  { channel := 3, notes := [demoNote], instrumentProgram := 25 }

/-- A song with no piano-family program on any track. -/
def guitarSong : ParsedSong :=
  { name := "guitar", duration := 3, tracks := [guitarTrack],
    pianoChannels := computePianoChannels [guitarTrack] }

/-- The scheduled form of `demoNote` as an explicit record. -/
def guitarNoteLit : ScheduledNote :=
  { note := demoNote, noteOnTime := 1000, noteOffTime := 2000,
    sent := false, offSent := false }

/-- A concrete playing state for the guitar song: loaded, sink
attached, playing since wall-clock 5000. -/
def guitarLit : MidiPlayer :=
  { song := some guitarSong, midiOutput := true, playing := true, paused := false,
    startTime := 5000, pauseTime := 0, scheduledNotes := [guitarNoteLit],
    pianoChannels := computePianoChannels [guitarTrack], currentSinger := "erin" }

/-- The three-note song playing since wall-clock 1000 (as after
`loadSong(song3); play()` at 1000). -/
def playingLit : MidiPlayer := { plLoaded3 with playing := true, startTime := 1000 }

/-- A zero-length note (`durationSeconds = 0`) at one second. -/
def zeroNote : NoteEvent :=
  { midi := 70, velocity := 1, duration := 0, time := 1, channel := 0 }

lemma countOn_append (a b : List Msg) : countOn (a ++ b) = countOn a + countOn b := by
  simp [countOn, List.countP_append]

lemma countOff_append (a b : List Msg) : countOff (a ++ b) = countOff a + countOff b := by
  simp [countOff, List.countP_append]

lemma countOn_noteOnMsgs_le (out : Bool) (pc : List Nat) (ch midi : Nat) (v : ℤ) :
    countOn (noteOnMsgs out pc ch midi v) ≤ 1 := by
  unfold noteOnMsgs
  split <;> simp [countOn, List.countP_cons]

lemma countOn_noteOffMsgs (out : Bool) (pc : List Nat) (ch midi : Nat) :
    countOn (noteOffMsgs out pc ch midi) = 0 := by
  unfold noteOffMsgs
  split <;> simp [countOn, List.countP_cons]

lemma countOff_noteOffMsgs_le (out : Bool) (pc : List Nat) (ch midi : Nat) :
    countOff (noteOffMsgs out pc ch midi) ≤ 1 := by
  unfold noteOffMsgs
  split <;> simp [countOff, List.countP_cons]

lemma countOff_noteOnMsgs (out : Bool) (pc : List Nat) (ch midi : Nat) (v : ℤ) :
    countOff (noteOnMsgs out pc ch midi v) = 0 := by
  unfold noteOnMsgs
  split <;> simp [countOff, List.countP_cons]

lemma tickNote_on_budget (out : Bool) (pc : List Nat) (t : ℚ) (s : ScheduledNote) :
    countOn (tickNote out pc t s).2 + onBudget (tickNote out pc t s).1 ≤ onBudget s := by
  unfold tickNote
  by_cases h1 : (!s.sent && decide (s.noteOnTime ≤ t)) = true
  · have hs : s.sent = false := by
      simp only [Bool.and_eq_true, Bool.not_eq_eq_eq_not, Bool.not_true] at h1
      exact h1.1
    rw [if_pos h1]
    by_cases h2 : (!s.offSent && decide (s.noteOffTime ≤ t)) = true
    · rw [if_pos h2]
      have := countOn_noteOnMsgs_le out pc s.note.channel s.note.midi
        (jsRound (s.note.velocity * 127))
      simp only [countOn_append, countOn_noteOffMsgs, onBudget, hs]
      simp
      omega
    · rw [if_neg h2]
      have := countOn_noteOnMsgs_le out pc s.note.channel s.note.midi
        (jsRound (s.note.velocity * 127))
      simp only [onBudget, hs]
      simp
      omega
  · rw [if_neg h1]
    by_cases h2 : (!s.offSent && s.sent && decide (s.noteOffTime ≤ t)) = true
    · rw [if_pos h2]
      simp [onBudget, countOn_noteOffMsgs]
    · rw [if_neg h2]
      simp [countOn]

lemma tickNote_off_budget (out : Bool) (pc : List Nat) (t : ℚ) (s : ScheduledNote) :
    countOff (tickNote out pc t s).2 + offBudget (tickNote out pc t s).1 ≤ offBudget s := by
  unfold tickNote
  by_cases h1 : (!s.sent && decide (s.noteOnTime ≤ t)) = true
  · rw [if_pos h1]
    by_cases h2 : (!s.offSent && decide (s.noteOffTime ≤ t)) = true
    · have ho : s.offSent = false := by
        simp only [Bool.and_eq_true, Bool.not_eq_eq_eq_not, Bool.not_true] at h2
        exact h2.1
      rw [if_pos h2]
      have := countOff_noteOffMsgs_le out pc s.note.channel s.note.midi
      simp only [countOff_append, countOff_noteOnMsgs, offBudget, ho]
      simp
      omega
    · rw [if_neg h2]
      simp [offBudget, countOff_noteOnMsgs]
  · rw [if_neg h1]
    by_cases h2 : (!s.offSent && s.sent && decide (s.noteOffTime ≤ t)) = true
    · have ho : s.offSent = false := by
        simp only [Bool.and_eq_true, Bool.not_eq_eq_eq_not, Bool.not_true] at h2
        exact h2.1.1
      rw [if_pos h2]
      have := countOff_noteOffMsgs_le out pc s.note.channel s.note.midi
      simp only [offBudget, ho]
      simp
      omega
    · rw [if_neg h2]
      simp [countOff]

lemma runNote_ticks_on_budget (out : Bool) (pc : List Nat) (ts : List ℚ)
    (s : ScheduledNote) :
    countOn (runNote out pc (ts.map NoteOp.nTick) s).2 +
      onBudget (runNote out pc (ts.map NoteOp.nTick) s).1 ≤ onBudget s := by
  induction ts generalizing s with
  | nil => simp [runNote, countOn]
  | cons t ts ih =>
    simp only [List.map_cons, runNote, applyNoteOp, countOn_append]
    have h1 := tickNote_on_budget out pc t s
    have h2 := ih (tickNote out pc t s).1
    omega

lemma runNote_ticks_off_budget (out : Bool) (pc : List Nat) (ts : List ℚ)
    (s : ScheduledNote) :
    countOff (runNote out pc (ts.map NoteOp.nTick) s).2 +
      offBudget (runNote out pc (ts.map NoteOp.nTick) s).1 ≤ offBudget s := by
  induction ts generalizing s with
  | nil => simp [runNote, countOff]
  | cons t ts ih =>
    simp only [List.map_cons, runNote, applyNoteOp, countOff_append]
    have h1 := tickNote_off_budget out pc t s
    have h2 := ih (tickNote out pc t s).1
    omega

/-- C1: for every sink configuration, every scheduled note and every
sequence of tick invocations within a single load/seek epoch (no
intervening reset or re-arm), the scheduler delivers the note-on of the
note at most once and its note-off at most once to the output sink;
in particular re-querying at the same or a later logical time never
re-emits an event already marked sent, because each emission
irrevocably sets the corresponding flag within the epoch. -/
theorem at_most_once_emission (out : Bool) (pc : List Nat) (ts : List ℚ)
    (s : ScheduledNote) :
    countOn (runNote out pc (ts.map NoteOp.nTick) s).2 ≤ 1 ∧
    countOff (runNote out pc (ts.map NoteOp.nTick) s).2 ≤ 1 := by
  have h1 := runNote_ticks_on_budget out pc ts s
  have h2 := runNote_ticks_off_budget out pc ts s
  unfold onBudget at h1
  unfold offBudget at h2
  constructor
  · rcases hs : s.sent <;> simp [hs] at h1 <;> omega
  · rcases ho : s.offSent <;> simp [ho] at h2 <;> omega

lemma noteOnMsgs_silent (out : Bool) (pc : List Nat) (ch midi : Nat) (v : ℤ)
    (h : (out && shouldSendToDisklavier pc ch) = false) :
    noteOnMsgs out pc ch midi v = [] := by
  unfold noteOnMsgs
  simp [h]

lemma noteOffMsgs_silent (out : Bool) (pc : List Nat) (ch midi : Nat)
    (h : (out && shouldSendToDisklavier pc ch) = false) :
    noteOffMsgs out pc ch midi = [] := by
  unfold noteOffMsgs
  simp [h]

lemma tickNote_silent (out : Bool) (pc : List Nat) (t : ℚ) (s : ScheduledNote)
    (h : (out && shouldSendToDisklavier pc s.note.channel) = false) :
    (tickNote out pc t s).2 = [] := by
  unfold tickNote
  split_ifs <;>
    simp [noteOnMsgs_silent out pc s.note.channel s.note.midi _ h,
      noteOffMsgs_silent out pc s.note.channel s.note.midi h]

lemma tickNote_note (out : Bool) (pc : List Nat) (t : ℚ) (s : ScheduledNote) :
    ((tickNote out pc t s).1).note = s.note := by
  unfold tickNote
  split_ifs <;> rfl

lemma seekNote_note (timeMs : ℚ) (s : ScheduledNote) :
    (seekNote timeMs s).note = s.note := by
  unfold seekNote
  split_ifs <;> rfl

lemma applyNoteOp_note (out : Bool) (pc : List Nat) (s : ScheduledNote) (op : NoteOp) :
    ((applyNoteOp out pc s op).1).note = s.note := by
  cases op <;> simp [applyNoteOp, tickNote_note, seekNote_note, resetNote]

lemma runNote_silent (out : Bool) (pc : List Nat) (ops : List NoteOp) (s : ScheduledNote)
    (h : (out && shouldSendToDisklavier pc s.note.channel) = false) :
    (runNote out pc ops s).2 = [] := by
  induction ops generalizing s with
  | nil => rfl
  | cons op ops ih =>
    have hn := applyNoteOp_note out pc s op
    have hstep : (applyNoteOp out pc s op).2 = [] := by
      cases op <;> simp [applyNoteOp, tickNote_silent out pc _ s h]
    have htail : (runNote out pc ops (applyNoteOp out pc s op).1).2 = [] := by
      apply ih
      rw [hn]
      exact h
    simp [runNote, hstep, htail]

lemma seekNote_sent_false (timeMs : ℚ) (s : ScheduledNote) (h : s.sent = false) :
    (seekNote timeMs s).sent = false := by
  unfold seekNote
  split_ifs <;> simp [h]

lemma tickNote_fresh_cases (out : Bool) (pc : List Nat) (t : ℚ) (s : ScheduledNote)
    (hs : s.sent = false) :
    tickNote out pc t s = (s, []) ∨
    ∃ s1 m2, tickNote out pc t s =
        (s1, noteOnMsgs out pc s.note.channel s.note.midi
          (jsRound (s.note.velocity * 127)) ++ m2) ∧
      s1.note = s.note ∧
      (m2 = noteOffMsgs out pc s.note.channel s.note.midi ∨ m2 = []) := by
  unfold tickNote
  by_cases h1 : (!s.sent && decide (s.noteOnTime ≤ t)) = true
  · right
    rw [if_pos h1]
    by_cases h2 : (!s.offSent && decide (s.noteOffTime ≤ t)) = true
    · exact ⟨{ s with sent := true, offSent := true },
        noteOffMsgs out pc s.note.channel s.note.midi, by rw [if_pos h2], rfl, Or.inl rfl⟩
    · exact ⟨{ s with sent := true }, [], by rw [if_neg h2]; simp, rfl, Or.inr rfl⟩
  · left
    rw [if_neg h1, if_neg]
    simp [hs]

/-- C2: for every scheduled note, starting from the epoch-initial flag
state (`sent = false`) and for every sequence of per-note engine
operations — ticks at arbitrary logical times, seek re-arms, and the
flag resets performed by `stop` and by a fresh `play` (pause and resume
do not touch note flags and emit no note events) — every point of the
emitted sink trace at which the note-off of the note has already been
delivered is preceded by a delivery of its note-on: no prefix of the
trace contains an off without an on. -/
theorem off_never_before_on (out : Bool) (pc : List Nat) (ops : List NoteOp)
    (s : ScheduledNote) (hs : s.sent = false) (k : Nat)
    (h0 : countOn (((runNote out pc ops s).2).take k) = 0) :
    countOff (((runNote out pc ops s).2).take k) = 0 := by
  induction ops generalizing s k with
  | nil =>
    simp [runNote, countOff]
  | cons op ops ih =>
    cases op with
    | nSeek timeMs =>
      simp only [runNote, applyNoteOp, List.nil_append] at h0 ⊢
      exact ih (seekNote timeMs s) (seekNote_sent_false timeMs s hs) k h0
    | nReset =>
      simp only [runNote, applyNoteOp, List.nil_append] at h0 ⊢
      exact ih (resetNote s) rfl k h0
    | nTick t =>
      rcases tickNote_fresh_cases out pc t s hs with hcase | ⟨s1, m2, heq, hnote, hm2⟩
      · simp only [runNote, applyNoteOp, hcase, List.nil_append] at h0 ⊢
        exact ih s hs k h0
      · by_cases hg : (out && shouldSendToDisklavier pc s.note.channel) = true
        · have hm1 : noteOnMsgs out pc s.note.channel s.note.midi
              (jsRound (s.note.velocity * 127)) =
              [[0x90, (s.note.midi : ℤ), jsRound (s.note.velocity * 127)]] := by
            unfold noteOnMsgs
            rw [if_pos hg]
          simp only [runNote, applyNoteOp, heq, hm1, List.cons_append] at h0 ⊢
          cases k with
          | zero => simp [countOff]
          | succ k =>
            exfalso
            rw [List.take_succ_cons] at h0
            simp [countOn, List.countP_cons] at h0
        · have hg0 : (out && shouldSendToDisklavier pc s.note.channel) = false := by
            simpa using hg
          have hm1 : noteOnMsgs out pc s.note.channel s.note.midi
              (jsRound (s.note.velocity * 127)) = [] :=
            noteOnMsgs_silent out pc s.note.channel s.note.midi _ hg0
          have hm2e : m2 = [] := by
            rcases hm2 with h | h
            · rw [h]
              exact noteOffMsgs_silent out pc s.note.channel s.note.midi hg0
            · exact h
          have htail : (runNote out pc ops s1).2 = [] := by
            apply runNote_silent
            rw [hnote]
            exact hg0
          simp only [runNote, applyNoteOp, heq, hm1, hm2e, htail, List.nil_append,
            List.append_nil] at h0 ⊢
          simp [countOff]

/-- Witness for C2 at a concrete input: a fresh scheduled note, a
single tick, and the empty trace point. -/
theorem off_never_before_on_witness :
    countOff (((runNote true [] [NoteOp.nTick 0] (buildScheduled demoNote)).2).take 0) = 0 :=
  off_never_before_on true [] [NoteOp.nTick 0] (buildScheduled demoNote) rfl 0 (by decide)

lemma mem_noteOnMsgs_shape (out : Bool) (pc : List Nat) (ch midi : Nat) (v : ℤ)
    (m : Msg) (h : m ∈ noteOnMsgs out pc ch midi v) : msgShape m := by
  unfold noteOnMsgs at h
  split at h
  · simp only [List.mem_singleton] at h
    exact Or.inl ⟨(midi : ℤ), v, h⟩
  · simp at h

lemma mem_noteOffMsgs_shape (out : Bool) (pc : List Nat) (ch midi : Nat)
    (m : Msg) (h : m ∈ noteOffMsgs out pc ch midi) : msgShape m := by
  unfold noteOffMsgs at h
  split at h
  · simp only [List.mem_singleton] at h
    exact Or.inr (Or.inl ⟨(midi : ℤ), h⟩)
  · simp at h

lemma mem_allNotesOffMsgs_shape (out : Bool) (m : Msg)
    (h : m ∈ allNotesOffMsgs out) : msgShape m := by
  unfold allNotesOffMsgs at h
  split at h
  · obtain ⟨ch, hch, hEq⟩ := List.mem_map.1 h
    refine Or.inr (Or.inr ⟨ch, List.mem_range.1 hch, hEq.symm⟩)
  · simp at h

lemma mem_tickNote_shape (out : Bool) (pc : List Nat) (t : ℚ) (s : ScheduledNote)
    (m : Msg) (h : m ∈ (tickNote out pc t s).2) : msgShape m := by
  unfold tickNote at h
  split_ifs at h with h1 h2 h3
  · rcases List.mem_append.1 h with h | h
    · exact mem_noteOnMsgs_shape out pc s.note.channel s.note.midi _ m h
    · exact mem_noteOffMsgs_shape out pc s.note.channel s.note.midi m h
  · exact mem_noteOnMsgs_shape out pc s.note.channel s.note.midi _ m h
  · exact mem_noteOffMsgs_shape out pc s.note.channel s.note.midi m h
  · simp at h

lemma mem_tickNotes_shape (out : Bool) (pc : List Nat) (t : ℚ)
    (l : List ScheduledNote) (m : Msg) (h : m ∈ (tickNotes out pc t l).2) :
    msgShape m := by
  induction l with
  | nil => simp [tickNotes] at h
  | cons s rest ih =>
    simp only [tickNotes] at h
    rcases List.mem_append.1 h with h | h
    · exact mem_tickNote_shape out pc t s m h
    · exact ih h

lemma mem_stop_shape (pl : MidiPlayer) (m : Msg) (h : m ∈ (stop pl).2) : msgShape m :=
  mem_allNotesOffMsgs_shape pl.midiOutput m h

lemma mem_applyOp_shape (pl : MidiPlayer) (op : Op) (m : Msg)
    (h : m ∈ (applyOp pl op).2) : msgShape m := by
  cases op with
  | opPlay n => simp [applyOp] at h
  | opPause n =>
    simp only [applyOp] at h
    unfold pause at h
    split at h
    · simp at h
    · exact mem_allNotesOffMsgs_shape pl.midiOutput m h
  | opStop =>
    simp only [applyOp] at h
    exact mem_stop_shape pl m h
  | opSeek n timeMs =>
    simp only [applyOp] at h
    unfold seek at h
    split at h
    · simp at h
    · exact mem_allNotesOffMsgs_shape pl.midiOutput m h
  | opTick n =>
    simp only [applyOp] at h
    unfold tick at h
    split at h
    · simp at h
    · split at h
      · simp at h
      · split at h
        · exact mem_stop_shape pl m h
        · exact mem_tickNotes_shape pl.midiOutput pl.pianoChannels
            (getCurrentTime pl n) pl.scheduledNotes m h
  | opLoad sg singer =>
    simp only [applyOp] at h
    unfold loadSong at h
    exact mem_stop_shape pl m h
  | opSetOutput b => simp [applyOp] at h

lemma mem_runOps_shape (pl : MidiPlayer) (ops : List Op) (m : Msg)
    (h : m ∈ (runOps pl ops).2) : msgShape m := by
  induction ops generalizing pl with
  | nil => simp [runOps] at h
  | cons op ops ih =>
    simp only [runOps] at h
    rcases List.mem_append.1 h with h | h
    · exact mem_applyOp_shape pl op m h
    · exact ih (applyOp pl op).1 h

/-- C3 (amended): over every command sequence, the only message the
engine ever hands to the sink whose channel nibble is 9 is the CC-123
all-notes-off safety broadcast on channel 9; note-on and note-off
events are always remapped to output channel 0 and therefore never
reach the sink on channel 9. -/
theorem channel9_only_all_notes_off (pl : MidiPlayer) (ops : List Op) (m : Msg)
    (h1 : m ∈ (runOps pl ops).2) (h2 : msgChannel m = 9) :
    m = [0xB9, 123, 0] := by
  rcases mem_runOps_shape pl ops m h1 with ⟨n, v, rfl⟩ | ⟨n, rfl⟩ | ⟨ch, hch, rfl⟩
  · simp [msgChannel] at h2
  · simp [msgChannel] at h2
  · simp only [msgChannel, List.headD_cons] at h2
    have hch9 : ch = 9 := by omega
    subst hch9
    rfl

/-- Counterexample to C3 as stated: already a bare `stop()` (also run
by `loadSong`) delivers the all-notes-off broadcast message
`[0xB9, 123, 0]`, whose channel nibble is 9, to the sink. -/
theorem channel9_delivered_counterexample :
    ([0xB9, 123, 0] : Msg) ∈ (runOps demoPlayer [Op.opStop]).2 ∧
    msgChannel [0xB9, 123, 0] = 9 := by
  constructor
  · decide
  · decide

/-- Witness for the amended C3 at a concrete input. -/
theorem channel9_only_all_notes_off_witness : ([0xB9, 123, 0] : Msg) = [0xB9, 123, 0] :=
  channel9_only_all_notes_off demoPlayer [Op.opStop] [0xB9, 123, 0] (by decide) (by decide)

/-- Counterexample to C4 as stated: `demoNote` spans the seek target
1500 (on at 1000, off at 2000), yet after `seek(1500)` from the
freshly loaded (never played) state its `sent` flag is `false`, not
`true` as the claim requires for a mid-note at the target. -/
theorem seek_rearm_counterexample :
    (demoLoaded.scheduledNotes.map fun s =>
      (decide (s.noteOnTime < 1500), decide ((1500 : ℚ) ≤ s.noteOffTime),
        s.sent, s.offSent)) = [(true, true, false, false)] ∧
    ((seek demoLoaded 10000 1500).1.scheduledNotes.map fun s => (s.sent, s.offSent)) =
      [(false, false)] := by
  constructor
  · with_unfolding_all decide
  · with_unfolding_all decide

/-- C4 (amended): after `seek(T)` each scheduled note keeps its note
and times; a note with `noteOnTime ≥ T` has both flags cleared; a note
with `noteOnTime < T ≤ noteOffTime` has `offSent` cleared while `sent`
keeps its prior value (the code never sets `sent := true`, so a note
whose on-event had not been emitted before the seek is re-armed, not
marked as already on); a note with both instants before `T` is left
completely unchanged. -/
theorem seek_rearm_flags (pl : MidiPlayer) (sg : ParsedSong) (now timeMs : ℚ)
    (hsong : pl.song = some sg) (i : Nat) (old new : ScheduledNote)
    (hold : pl.scheduledNotes.get? i = some old)
    (hnew : (seek pl now timeMs).1.scheduledNotes.get? i = some new) :
    new.note = old.note ∧ new.noteOnTime = old.noteOnTime ∧
    new.noteOffTime = old.noteOffTime ∧
    (timeMs ≤ old.noteOnTime → new.sent = false ∧ new.offSent = false) ∧
    (old.noteOnTime < timeMs → timeMs ≤ old.noteOffTime →
      new.sent = old.sent ∧ new.offSent = false) ∧
    (old.noteOnTime < timeMs → old.noteOffTime < timeMs → new = old) := by
  unfold seek at hnew
  rw [hsong] at hnew
  simp only [List.get?_map, hold, Option.map_some', Option.some_inj] at hnew
  subst hnew
  unfold seekNote
  by_cases h1 : timeMs ≤ old.noteOnTime
  · rw [if_pos (by simpa using h1)]
    refine ⟨rfl, rfl, rfl, fun _ => ⟨rfl, rfl⟩, fun hlt _ => ?_, fun hlt _ => ?_⟩
    · exact absurd h1 (not_le.2 hlt)
    · exact absurd h1 (not_le.2 hlt)
  · rw [if_neg (by simpa using h1)]
    by_cases h2 : timeMs ≤ old.noteOffTime
    · rw [if_pos (by simpa using h2)]
      refine ⟨rfl, rfl, rfl, fun hle => absurd hle h1, fun _ _ => ⟨rfl, rfl⟩,
        fun _ hofflt => absurd h2 (not_le.2 hofflt)⟩
    · rw [if_neg (by simpa using h2)]
      exact ⟨rfl, rfl, rfl, fun hle => absurd hle h1, fun _ hle => absurd hle h2,
        fun _ _ => rfl⟩

/-- Witness for the amended C4 at the concrete mid-note seek input. -/
theorem seek_rearm_flags_witness :
    (seekNote 1500 (buildScheduled demoNote)).note = (buildScheduled demoNote).note ∧
    (seekNote 1500 (buildScheduled demoNote)).noteOnTime =
      (buildScheduled demoNote).noteOnTime ∧
    (seekNote 1500 (buildScheduled demoNote)).noteOffTime =
      (buildScheduled demoNote).noteOffTime ∧
    ((1500 : ℚ) ≤ (buildScheduled demoNote).noteOnTime →
      (seekNote 1500 (buildScheduled demoNote)).sent = false ∧
      (seekNote 1500 (buildScheduled demoNote)).offSent = false) ∧
    ((buildScheduled demoNote).noteOnTime < 1500 →
      (1500 : ℚ) ≤ (buildScheduled demoNote).noteOffTime →
      (seekNote 1500 (buildScheduled demoNote)).sent = (buildScheduled demoNote).sent ∧
      (seekNote 1500 (buildScheduled demoNote)).offSent = false) ∧
    ((buildScheduled demoNote).noteOnTime < 1500 →
      (buildScheduled demoNote).noteOffTime < 1500 →
      seekNote 1500 (buildScheduled demoNote) = buildScheduled demoNote) :=
  seek_rearm_flags demoLoaded demoSong 10000 1500 (by with_unfolding_all decide) 0
    (buildScheduled demoNote) (seekNote 1500 (buildScheduled demoNote))
    (by with_unfolding_all decide) (by with_unfolding_all decide)

lemma pianoChannels3 : computePianoChannels [track3] = [0] := by decide

lemma sortScheduled3 :
    sortByOnTime [buildScheduled (note3 0), buildScheduled (note3 1),
      buildScheduled (note3 2)] = scheduled3 := by
  norm_num [sortByOnTime, insertByOnTime, buildScheduled, note3, scheduled3,
    List.foldl, ScheduledNote.mk.injEq]

lemma loadSong3_eq : (loadSong demoPlayer song3 "alice").1 = plLoaded3 := by
  have h := sortScheduled3
  norm_num [loadSong, stop, resetNotes, demoPlayer, initPlayer, song3, track3,
    plLoaded3, pianoChannels3, MidiPlayer.mk.injEq] at h ⊢
  exact ⟨h, by decide⟩

lemma seek3_eq : (seek plLoaded3 10000 1500).1 = plSeeked3 := by
  norm_num [seek, plLoaded3, plSeeked3, scheduled3, seekNote, note3,
    MidiPlayer.mk.injEq, ScheduledNote.mk.injEq]

lemma play3_eq : play plSeeked3 20000 = plPlayed3 := by
  norm_num [play, plSeeked3, plLoaded3, plPlayed3, resetNotes, resetNote, scheduled3,
    MidiPlayer.mk.injEq, ScheduledNote.mk.injEq]

lemma velocity3 : jsRound (127 : ℚ) = 127 := by with_unfolding_all decide

lemma tick3_msgs : (tick plPlayed3 20016).2 = [[0x90, 60, 127]] := by
  norm_num [tick, plPlayed3, plSeeked3, plLoaded3, getCurrentTime, scheduled3, song3,
    tickNotes, tickNote, noteOnMsgs, noteOffMsgs, shouldSendToDisklavier, note3,
    velocity3]

/-- Counterexample to C5 as stated: on the three-note song, after
`seek(1500)` while stopped and then `play()` at wall-clock 20000, no
note is marked as already on — in particular the note at t = 1 has
`sent = false`, not `true` — and the very first tick (wall-clock
20016, logical time 16 ms) delivers the note-on of the note at t = 0,
which the claim says never fires in this epoch. -/
theorem seek_stopped_play_counterexample :
    ((play (seek (loadSong demoPlayer song3 "alice").1 10000 1500).1 20000).scheduledNotes.map
        fun s => s.sent) = [false, false, false] ∧
    ([0x90, 60, 127] : Msg) ∈
      (tick (play (seek (loadSong demoPlayer song3 "alice").1 10000 1500).1 20000) 20016).2 := by
  rw [loadSong3_eq, seek3_eq, play3_eq, tick3_msgs]
  constructor
  · decide
  · decide

/-- C5 (amended): a `seek` performed while stopped is discarded by the
following `play()`: the non-resume branch of `play` resets every note
flag and sets the logical-time origin to the play instant, so playback
restarts from logical time 0 — the note at t = 0 fires at the first
tick, and the note at t = 1 is re-armed (`sent = false`), its on-event
and off-event both firing later in their natural order. -/
theorem seek_stopped_play_restarts :
    (play (seek (loadSong demoPlayer song3 "alice").1 10000 1500).1 20000).startTime = 20000 ∧
    ((play (seek (loadSong demoPlayer song3 "alice").1 10000 1500).1 20000).scheduledNotes.map
        fun s => (s.sent, s.offSent)) =
      [(false, false), (false, false), (false, false)] ∧
    (tick (play (seek (loadSong demoPlayer song3 "alice").1 10000 1500).1 20000) 20016).2 =
      [[0x90, 60, 127]] := by
  rw [loadSong3_eq, seek3_eq, play3_eq, tick3_msgs]
  refine ⟨rfl, by decide, rfl⟩

lemma computePianoChannels_empty (tracks : List TrackInfo)
    (hno : ∀ tr ∈ tracks, PIANO_PROGRAMS.contains tr.instrumentProgram = false) :
    computePianoChannels tracks = [] := by
  unfold computePianoChannels
  have hfil : tracks.filter (fun tr =>
      !tr.notes.isEmpty && PIANO_PROGRAMS.contains tr.instrumentProgram &&
        tr.channel != 9) = [] := by
    rw [List.filter_eq_nil]
    intro tr htr
    have h2 : tr.instrumentProgram ∉ PIANO_PROGRAMS := by simpa using hno tr htr
    simp [h2]
  rw [hfil]
  rfl

lemma shouldSendToDisklavier_empty (ch : Nat) (h : ch % 16 ≠ 9) :
    shouldSendToDisklavier [] ch = true := by
  unfold shouldSendToDisklavier
  simp [h]

lemma tickNotes_delivers (out : Bool) (pc : List Nat) (t : ℚ)
    (l : List ScheduledNote) (s : ScheduledNote) (hmem : s ∈ l)
    (hsent : s.sent = false) (hdue : s.noteOnTime ≤ t)
    (hg : (out && shouldSendToDisklavier pc s.note.channel) = true) :
    [0x90, (s.note.midi : ℤ), jsRound (s.note.velocity * 127)] ∈
      (tickNotes out pc t l).2 := by
  induction l with
  | nil => cases hmem
  | cons a rest ih =>
    simp only [tickNotes]
    rcases List.mem_cons.1 hmem with rfl | hmem2
    · apply List.mem_append_left
      have hm1 : noteOnMsgs out pc s.note.channel s.note.midi
          (jsRound (s.note.velocity * 127)) =
          [[0x90, (s.note.midi : ℤ), jsRound (s.note.velocity * 127)]] := by
        unfold noteOnMsgs
        rw [if_pos hg]
      unfold tickNote
      rw [if_pos (by simp [hsent, hdue])]
      split
      · rw [hm1]
        simp
      · rw [hm1]
        simp
    · exact List.mem_append_right _ (ih hmem2)

/-- C6: when no track of the song declares a piano-family program, the
classifier yields the empty piano-channel set, and the routing falls
back to sending every non-percussion channel: any scheduled note on a
channel other than 9 (masked to 4 bits) that is due and unsent at a
tick inside the song has its note-on delivered to the sink by that
tick. -/
theorem fallback_all_nonpercussion_delivered (tracks : List TrackInfo)
    (pl : MidiPlayer) (sg : ParsedSong) (now : ℚ) (s : ScheduledNote)
    (hno : ∀ tr ∈ tracks, PIANO_PROGRAMS.contains tr.instrumentProgram = false)
    (hsong : pl.song = some sg)
    (hpc : pl.pianoChannels = computePianoChannels tracks)
    (hout : pl.midiOutput = true)
    (hplay : pl.playing = true) (hpause : pl.paused = false)
    (hdur : getCurrentTime pl now < sg.duration * 1000)
    (hmem : s ∈ pl.scheduledNotes) (hsent : s.sent = false)
    (hch : s.note.channel % 16 ≠ 9)
    (hdue : s.noteOnTime ≤ getCurrentTime pl now) :
    computePianoChannels tracks = [] ∧
    [0x90, (s.note.midi : ℤ), jsRound (s.note.velocity * 127)] ∈ (tick pl now).2 := by
  have hempty := computePianoChannels_empty tracks hno
  refine ⟨hempty, ?_⟩
  have hg : (pl.midiOutput && shouldSendToDisklavier pl.pianoChannels s.note.channel) =
      true := by
    rw [hout, hpc, hempty, shouldSendToDisklavier_empty s.note.channel hch]
    rfl
  unfold tick
  split
  · next heq =>
    rw [hsong] at heq
    cases heq
  · next sg1 heq =>
    have hsg : sg1 = sg := by
      rw [hsong] at heq
      exact (Option.some_inj.1 heq).symm
    subst hsg
    rw [if_neg (by simp [hplay, hpause]), if_neg (by
      simp only [decide_eq_true_eq]
      exact not_le.2 hdur)]
    exact tickNotes_delivers pl.midiOutput pl.pianoChannels (getCurrentTime pl now)
      pl.scheduledNotes s hmem hsent hdue hg

/-- Witness for C6 at a concrete input: the guitar song, playing, with
its single note due. -/
theorem fallback_all_nonpercussion_delivered_witness :
    computePianoChannels [guitarTrack] = [] ∧
    [0x90, (guitarNoteLit.note.midi : ℤ),
      jsRound (guitarNoteLit.note.velocity * 127)] ∈ (tick guitarLit 6500).2 :=
  fallback_all_nonpercussion_delivered [guitarTrack] guitarLit guitarSong 6500
    guitarNoteLit (by decide) rfl rfl rfl rfl rfl
    (by norm_num [getCurrentTime, guitarLit, guitarSong])
    (List.mem_singleton.2 rfl) rfl (by decide)
    (by norm_num [getCurrentTime, guitarLit, guitarNoteLit])

lemma pause_playing_eq (pl : MidiPlayer) (n1 : ℚ)
    (hplay : pl.playing = true) (hpause : pl.paused = false) :
    (pause pl n1).1 = { pl with paused := true, pauseTime := n1 } := by
  unfold pause
  rw [if_neg (by simp [hplay, hpause])]

lemma play_resume_eq (pl : MidiPlayer) (sg : ParsedSong) (n2 : ℚ)
    (hsong : pl.song = some sg) (hpaused : pl.paused = true) :
    play pl n2 =
      { pl with
          startTime := pl.startTime + (n2 - pl.pauseTime)
          paused := false
          playing := true } := by
  unfold play
  split
  · next heq =>
    rw [hsong] at heq
    cases heq
  · next sg1 heq =>
    rw [if_pos hpaused]

/-- C7: from a loaded, playing, unpaused state, the sequence
`pause()` at wall-clock `n1` then `play()` at wall-clock `n2` resumes
with the logical time immediately after the resume equal to the
logical time immediately before the pause: the resume shifts the
time origin forward by exactly the pause duration `n2 - n1` and leaves
every note flag untouched. -/
theorem pause_play_round_trip (pl : MidiPlayer) (sg : ParsedSong) (n1 n2 : ℚ)
    (hsong : pl.song = some sg) (hplay : pl.playing = true) (hpause : pl.paused = false) :
    getCurrentTime (play (pause pl n1).1 n2) n2 = getCurrentTime pl n1 ∧
    (play (pause pl n1).1 n2).startTime = pl.startTime + (n2 - n1) ∧
    (play (pause pl n1).1 n2).scheduledNotes = pl.scheduledNotes ∧
    (play (pause pl n1).1 n2).playing = true ∧
    (play (pause pl n1).1 n2).paused = false := by
  have hpp : play (pause pl n1).1 n2 =
      { pl with
          startTime := pl.startTime + (n2 - n1)
          pauseTime := n1
          paused := false
          playing := true } := by
    rw [pause_playing_eq pl n1 hplay hpause]
    rw [play_resume_eq ({ pl with paused := true, pauseTime := n1 }) sg n2 hsong rfl]
  rw [hpp]
  refine ⟨?_, rfl, rfl, rfl, rfl⟩
  simp only [getCurrentTime, hplay, hpause, Bool.not_true, Bool.not_false]
  norm_num
  ring

/-- Witness for C7 at a concrete input: pause at 2000, resume at
3500. -/
theorem pause_play_round_trip_witness :
    getCurrentTime (play (pause playingLit 2000).1 3500) 3500 =
      getCurrentTime playingLit 2000 ∧
    (play (pause playingLit 2000).1 3500).startTime =
      playingLit.startTime + (3500 - 2000) ∧
    (play (pause playingLit 2000).1 3500).scheduledNotes = playingLit.scheduledNotes ∧
    (play (pause playingLit 2000).1 3500).playing = true ∧
    (play (pause playingLit 2000).1 3500).paused = false :=
  pause_play_round_trip playingLit song3 2000 3500 rfl rfl rfl

lemma seek_some_eq (pl : MidiPlayer) (sg : ParsedSong) (now timeMs : ℚ)
    (hsong : pl.song = some sg) :
    (seek pl now timeMs).1 =
      { pl with
          scheduledNotes := pl.scheduledNotes.map (seekNote timeMs)
          startTime := now - timeMs } := by
  unfold seek
  split
  · next heq =>
    rw [hsong] at heq
    cases heq
  · next sg1 heq => rfl

lemma seekNote_noteOnTime (timeMs : ℚ) (s : ScheduledNote) :
    (seekNote timeMs s).noteOnTime = s.noteOnTime := by
  unfold seekNote
  split_ifs <;> rfl

/-- Counterexample to C8 as stated: in a playing state, immediately
after `seek(-1000)` at wall-clock 5000 the logical time is `-1000`,
which is negative — the time-origin arithmetic does not clamp a
negative target to zero at the moment of the call. -/
theorem negative_seek_counterexample :
    getCurrentTime (seek playingLit 5000 (-1000)).1 5000 = -1000 ∧
    getCurrentTime (seek playingLit 5000 (-1000)).1 5000 < 0 := by
  rw [seek_some_eq playingLit song3 5000 (-1000) rfl]
  norm_num [getCurrentTime, playingLit, plLoaded3]

/-- C8 (amended): a negative seek is not clamped to zero: while
playing, `seek(T)` with `T < 0` makes the logical time at wall-clock
`now + d` equal to `T + d`, which is negative at the moment of the
call and for the first `-T` milliseconds after it, and non-negative
only from then on; every note (all on-times being non-negative and
hence at or after the target) is reset to fully unsent, so playback
replays from the start once logical time reaches 0 — a deferred
restart rather than an immediate seek-to-zero. -/
theorem negative_seek_time_shift (pl : MidiPlayer) (sg : ParsedSong)
    (now timeMs d : ℚ) (hsong : pl.song = some sg)
    (hplay : pl.playing = true) (hpause : pl.paused = false) (hneg : timeMs < 0) :
    getCurrentTime (seek pl now timeMs).1 (now + d) = timeMs + d ∧
    (0 ≤ timeMs + d ↔ -timeMs ≤ d) ∧
    ∀ s ∈ (seek pl now timeMs).1.scheduledNotes, 0 ≤ s.noteOnTime →
      s.sent = false ∧ s.offSent = false := by
  rw [seek_some_eq pl sg now timeMs hsong]
  refine ⟨?_, by constructor <;> intro <;> linarith, ?_⟩
  · simp only [getCurrentTime, hplay, hpause, Bool.not_true, Bool.not_false]
    norm_num
    ring
  · intro s hs h0
    obtain ⟨s0, hs0, rfl⟩ := List.mem_map.1 hs
    rw [seekNote_noteOnTime] at h0
    have hle : timeMs ≤ s0.noteOnTime := le_of_lt (lt_of_lt_of_le hneg h0)
    unfold seekNote
    rw [if_pos (decide_eq_true hle)]
    exact ⟨rfl, rfl⟩

/-- Witness for the amended C8 at a concrete input: seek to -1000 at
wall-clock 5000, observed 200 ms later. -/
theorem negative_seek_time_shift_witness :
    getCurrentTime (seek playingLit 5000 (-1000)).1 (5000 + 200) = -1000 + 200 ∧
    ((0 : ℚ) ≤ -1000 + 200 ↔ -(-1000) ≤ (200 : ℚ)) ∧
    ∀ s ∈ (seek playingLit 5000 (-1000)).1.scheduledNotes, 0 ≤ s.noteOnTime →
      s.sent = false ∧ s.offSent = false :=
  negative_seek_time_shift playingLit song3 5000 (-1000) 200 rfl rfl rfl (by norm_num)

/-- C9: a zero-duration note (`noteOnTime = noteOffTime`) that is due
at a tick has its note-on and note-off both emitted within that same
tick, in that order, and both flags set; the per-note processing is a
total function, so no exceptional behaviour exists. -/
theorem zero_duration_note_on_off (out : Bool) (pc : List Nat) (note : NoteEvent)
    (t : ℚ) (hdur : note.duration = 0)
    (ht : (buildScheduled note).noteOnTime ≤ t) :
    (tickNote out pc t (buildScheduled note)).1.sent = true ∧
    (tickNote out pc t (buildScheduled note)).1.offSent = true ∧
    (tickNote out pc t (buildScheduled note)).2 =
      noteOnMsgs out pc note.channel note.midi (jsRound (note.velocity * 127)) ++
        noteOffMsgs out pc note.channel note.midi := by
  have htOn : note.time * 1000 ≤ t := by
    simpa [buildScheduled] using ht
  have h1 : (!(buildScheduled note).sent &&
      decide ((buildScheduled note).noteOnTime ≤ t)) = true := by
    simp [buildScheduled, htOn]
  have h2 : (!(buildScheduled note).offSent &&
      decide ((buildScheduled note).noteOffTime ≤ t)) = true := by
    simp [buildScheduled, hdur, htOn]
  unfold tickNote
  rw [if_pos h1, if_pos h2]
  exact ⟨rfl, rfl, rfl⟩

/-- Witness for C9 at a concrete input: the zero-length note, due at
logical time 2000. -/
theorem zero_duration_note_on_off_witness :
    (tickNote true [] 2000 (buildScheduled zeroNote)).1.sent = true ∧
    (tickNote true [] 2000 (buildScheduled zeroNote)).1.offSent = true ∧
    (tickNote true [] 2000 (buildScheduled zeroNote)).2 =
      noteOnMsgs true [] zeroNote.channel zeroNote.midi
        (jsRound (zeroNote.velocity * 127)) ++
        noteOffMsgs true [] zeroNote.channel zeroNote.midi :=
  zero_duration_note_on_off true [] zeroNote 2000 rfl
    (by norm_num [buildScheduled, zeroNote])

/-- C10: whenever the player is not playing, `getCurrentTime` returns
0 and the reported state snapshot carries `currentTime = 0`, and this
remains so after any `seek` performed while stopped — the
seek-adjusted origin is not reflected in the reported position. -/
theorem stopped_current_time_zero (pl : MidiPlayer) (now : ℚ)
    (hstop : pl.playing = false) :
    getCurrentTime pl now = 0 ∧ (getState pl now).currentTime = 0 ∧
    ∀ timeMs now2 now3, getCurrentTime (seek pl now2 timeMs).1 now3 = 0 ∧
      (getState (seek pl now2 timeMs).1 now3).currentTime = 0 := by
  refine ⟨by simp [getCurrentTime, hstop], by simp [getState, getCurrentTime, hstop], ?_⟩
  intro timeMs now2 now3
  have hpl : (seek pl now2 timeMs).1.playing = false := by
    unfold seek
    split
    · exact hstop
    · exact hstop
  exact ⟨by simp [getCurrentTime, hpl], by simp [getState, getCurrentTime, hpl]⟩

/-- Witness for C10 at a concrete input: the freshly loaded (stopped)
three-note song, seeking to 1500 while stopped. -/
theorem stopped_current_time_zero_witness :
    getCurrentTime plLoaded3 9999 = 0 ∧ (getState plLoaded3 9999).currentTime = 0 ∧
    ∀ timeMs now2 now3, getCurrentTime (seek plLoaded3 now2 timeMs).1 now3 = 0 ∧
      (getState (seek plLoaded3 now2 timeMs).1 now3).currentTime = 0 :=
  stopped_current_time_zero plLoaded3 9999 rfl

end MidiKaraoke
